import Mathlib

/-!
Verification of `src/adni-python/api/clinical_constraints.py`.

The module works on `(T, 4)` numpy arrays whose columns are
`[MMSE, CDR_Global, CDR_SOB, ADAS_Cog]`.  We embed a timepoint as a record
of four rationals and a predictions array as a `List ScoreRow`.  Numpy
floating-point arithmetic is embedded as exact rational arithmetic.
Python exceptions are embedded with `Except PyError`.
-/

/-- One timepoint of the `(T, 4)` predictions array: columns 0..3 are
`mmse`, `cdr_global`, `cdr_sob`, `adas` (ADAS-Cog). -/
structure ScoreRow where
  mmse : ℚ
  cdr_global : ℚ
  cdr_sob : ℚ
  adas : ℚ
deriving DecidableEq, Repr, Inhabited

/-- Python exceptions that the embedded functions can raise.
`indexError` embeds `IndexError` (out-of-bounds element access),
`valueError` embeds `ValueError` (numpy reduction over an empty array),
`shapeError` is the error class named by the specification; the source
never raises it, the constructor exists so that statements about it can
be written down. -/
inductive PyError where
  | indexError
  | valueError
  | shapeError
deriving DecidableEq, Repr

deriving instance DecidableEq for Except

/-- `min(a, b)` (Python builtin / numpy elementwise minimum). -/
def pyMin (a b : ℚ) : ℚ := if b < a then b else a

/-- `max(a, b)` (Python builtin / numpy elementwise maximum). -/
def pyMax (a b : ℚ) : ℚ := if a < b then b else a

/-- `np.clip(x, lo, hi)`: values below `lo` become `lo`, above `hi` become `hi`. -/
def clipQ (lo hi x : ℚ) : ℚ := pyMin hi (pyMax lo x)

/-- The CDR-Global band table, the `if/elif` chain appearing twice in the
source (`generate_future_predictions` lines 151-163 and
`enforce_clinical_constraints` lines 235-247). -/
def cdrBand (a : ℚ) : ℚ :=
  if a < 10 then 0
  else if a < 20 then 1 / 2
  else if a < 32 then 1
  else if a < 55 then 2
  else 3

/-- The loop `for t in range(1, T)` of STEP 1 of `enforce_clinical_constraints`:
given the previous fixed value and previous raw value, each raw value `r`
contributes `delta = r - prevRaw`, reversed to `abs` when negative, and the
fixed value accumulates. -/
def adasFixSteps (prevFixed prevRaw : ℚ) : List ℚ → List ℚ
  | [] => []
  | r :: rs =>
      let d := r - prevRaw
      let d := if d < 0 then -d else d
      let f := prevFixed + d
      f :: adasFixSteps f r rs

/-- STEPS 2-4 of `enforce_clinical_constraints`: the output row derived from
one repaired ADAS-Cog value
(`mmse = clip(30 - a*30/70, 0, 30)`, `cdr_sob = clip(a*18/70, 0, 18)`,
`cdr_global = band(a)`, column 3 is the repaired value itself). -/
def deriveRow (a : ℚ) : ScoreRow :=
  { mmse := clipQ 0 30 (30 - a * 30 / 70)
    cdr_global := cdrBand a
    cdr_sob := clipQ 0 18 (a * 18 / 70)
    adas := a }

/-- `enforce_clinical_constraints(predictions, patient_data)` (the
`patient_data` argument is never read by the source body, so it is dropped).
On an empty array the assignment `adas_fixed[0] = max(0, min(70, raw_adas[0]))`
raises `IndexError`; otherwise STEP 1 repairs the ADAS-Cog column
(first value clipped via `max(0, min(70, .))`, later values accumulate
absolute deltas, then `np.clip(.., 0, 70)`), and STEPS 2-4 derive the other
three columns from the repaired value. -/
def enforce_clinical_constraints (predictions : List ScoreRow) :
    Except PyError (List ScoreRow) :=
  let raw_adas := predictions.map ScoreRow.adas
  match raw_adas with
  | [] => .error .indexError
  | r0 :: rs =>
      let f0 := pyMax 0 (pyMin 70 r0)
      let adas_pre := f0 :: adasFixSteps f0 r0 rs
      let adas_fixed := adas_pre.map (clipQ 0 70)
      .ok (adas_fixed.map deriveRow)

/-- The report returned by `validate_predictions`: one boolean per check,
the observed `(min, max)` per column, and the aggregate `all_valid`. -/
structure ValidationReport where
  mmse_valid : Bool
  mmse_range : ℚ × ℚ
  cdr_global_valid : Bool
  cdr_global_range : ℚ × ℚ
  cdr_sob_valid : Bool
  cdr_sob_range : ℚ × ℚ
  adas_valid : Bool
  adas_range : ℚ × ℚ
  adas_monotonic : Bool
  mmse_monotonic_decreasing : Bool
  all_valid : Bool
deriving DecidableEq, Repr

/-- `np.all((col >= lo) & (col <= hi))`. -/
def allInRange (lo hi : ℚ) (l : List ℚ) : Bool :=
  l.all fun x => decide (lo ≤ x) && decide (x ≤ hi)

/-- `v in {0, 0.5, 1, 2, 3}` (the `valid_cdr_values` set literal). -/
def isValidCdr (v : ℚ) : Bool :=
  decide (v = 0) || decide (v = 1 / 2) || decide (v = 1) ||
  decide (v = 2) || decide (v = 3)

/-- `np.all(np.diff(l) >= 0)`. -/
def diffsNonneg : List ℚ → Bool
  | [] => true
  | [_] => true
  | a :: b :: rs => decide (0 ≤ b - a) && diffsNonneg (b :: rs)

/-- `np.all(np.diff(l) <= 0)`. -/
def diffsNonpos : List ℚ → Bool
  | [] => true
  | [_] => true
  | a :: b :: rs => decide (b - a ≤ 0) && diffsNonpos (b :: rs)

/-- `col.min()` of a nonempty column given as head and tail. -/
def colMin (h : ℚ) (t : List ℚ) : ℚ := t.foldl pyMin h

/-- `col.max()` of a nonempty column given as head and tail. -/
def colMax (h : ℚ) (t : List ℚ) : ℚ := t.foldl pyMax h

/-- `validate_predictions(predictions)`.  On an empty array the checks
`np.all(...)` are vacuously true but `float(mmse.min())` raises `ValueError`
(reduction over a zero-size array); on a nonempty array the report is built
exactly as in the source, with
`all_valid = mmse_valid and cdr_global_valid and cdr_sob_valid and
adas_valid and adas_monotonic`. -/
def validate_predictions : List ScoreRow → Except PyError ValidationReport
  | [] => .error .valueError
  | p :: ps =>
      let mmse := p.mmse :: ps.map ScoreRow.mmse
      let cdr_global := p.cdr_global :: ps.map ScoreRow.cdr_global
      let cdr_sob := p.cdr_sob :: ps.map ScoreRow.cdr_sob
      let adas := p.adas :: ps.map ScoreRow.adas
      let mmse_valid := allInRange 0 30 mmse
      let cdr_global_valid := cdr_global.all isValidCdr
      let cdr_sob_valid := allInRange 0 18 cdr_sob
      let adas_valid := allInRange 0 70 adas
      let adas_monotonic := diffsNonneg adas
      .ok
        { mmse_valid := mmse_valid
          mmse_range := (colMin p.mmse (ps.map ScoreRow.mmse),
                         colMax p.mmse (ps.map ScoreRow.mmse))
          cdr_global_valid := cdr_global_valid
          cdr_global_range := (colMin p.cdr_global (ps.map ScoreRow.cdr_global),
                               colMax p.cdr_global (ps.map ScoreRow.cdr_global))
          cdr_sob_valid := cdr_sob_valid
          cdr_sob_range := (colMin p.cdr_sob (ps.map ScoreRow.cdr_sob),
                            colMax p.cdr_sob (ps.map ScoreRow.cdr_sob))
          adas_valid := adas_valid
          adas_range := (colMin p.adas (ps.map ScoreRow.adas),
                         colMax p.adas (ps.map ScoreRow.adas))
          adas_monotonic := adas_monotonic
          mmse_monotonic_decreasing := diffsNonpos mmse
          all_valid := mmse_valid && cdr_global_valid && cdr_sob_valid &&
                       adas_valid && adas_monotonic }

/-- The baseline observation passed to `generate_future_predictions` as the
`last_session_scores` dict; `none` embeds an absent key, so that
`d.get(key, default)` becomes `Option.getD`. -/
structure BaselineScores where
  mmse : Option ℚ
  cdr_global : Option ℚ
  cdr_sob : Option ℚ
  adas_totscore : Option ℚ
deriving DecidableEq, Repr

/-- A cumulative random walk: `traj[0] = x0`, `traj[t] = traj[t-1] + step[t-1]`.
This is the loop `for t in range(1, num_timepoints)` of STEP 1 (with
`step = ` the draws of `np.random.uniform(1.4, 1.9)`) and the raw walks of
STEPS 3 and 4. -/
def walk (x0 : ℚ) (step : ℕ → ℚ) : ℕ → ℚ
  | 0 => x0
  | t + 1 => walk x0 step t + step t

/-- The "mod difference" second pass of STEPS 3 and 4: starting from the
baseline, accumulate the absolute value of consecutive differences of the
raw walk. -/
def modDiffTraj (x0 : ℚ) (change : ℕ → ℚ) : ℕ → ℚ
  | 0 => x0
  | t + 1 => modDiffTraj x0 change t + |walk x0 change (t + 1) - walk x0 change t|

/-- The rescaling applied after each trajectory is generated: if the final
value (index `T - 1`, numpy's `[-1]`) exceeds `cap`, the whole trajectory is
multiplied by `target / final` (for ADAS-Cog `cap = 70`, `target = 61.3`;
for MMSE `cap = target = 30`; for CDR-SOB `cap = target = 18`). -/
def scaleIfExceeds (cap target : ℚ) (T : ℕ) (traj : ℕ → ℚ) : ℕ → ℚ :=
  fun t => if traj (T - 1) > cap then traj t * (target / traj (T - 1)) else traj t

/-- `generate_future_predictions(last_session_scores, num_months, interval_months)`.
The three streams that the source draws from the process-global numpy
generator after `np.random.seed(42)` / `seed(43)` / `seed(44)` are abstracted
as explicit draw streams `adasInc`, `mmseChange`, `sobChange`; the theorems
below constrain them to the documented ranges where needed.
`num_timepoints = num_months // interval_months + 1`; dict defaults are
`mmse=17.6`, `cdr_global=1.0` (read into `baseline_cdr_global` but never used
afterwards), `cdr_sob=7.4`, `adas_totscore=28.9`.  Each trajectory is built,
rescaled if its final value exceeds its cap, clipped, and CDR-Global is
derived per timepoint from the finalized ADAS-Cog value. -/
def generate_future_predictions (last_session_scores : BaselineScores)
    (num_months interval_months : ℕ)
    (adasInc mmseChange sobChange : ℕ → ℚ) : List ScoreRow :=
  let num_timepoints := num_months / interval_months + 1
  let baseline_mmse := last_session_scores.mmse.getD (176 / 10)
  let _baseline_cdr_global := last_session_scores.cdr_global.getD 1
  let baseline_cdr_sob := last_session_scores.cdr_sob.getD (74 / 10)
  let baseline_adas := last_session_scores.adas_totscore.getD (289 / 10)
  let adas_trajectory := fun t =>
    clipQ 0 70 (scaleIfExceeds 70 (613 / 10) num_timepoints (walk baseline_adas adasInc) t)
  let mmse_trajectory := fun t =>
    clipQ 0 30 (scaleIfExceeds 30 30 num_timepoints (modDiffTraj baseline_mmse mmseChange) t)
  let cdr_sob_trajectory := fun t =>
    clipQ 0 18 (scaleIfExceeds 18 18 num_timepoints (modDiffTraj baseline_cdr_sob sobChange) t)
  (List.range num_timepoints).map fun t =>
    { mmse := mmse_trajectory t
      cdr_global := cdrBand (adas_trajectory t)
      cdr_sob := cdr_sob_trajectory t
      adas := adas_trajectory t }

/-- The repaired, clipped ADAS-Cog column of `enforce_clinical_constraints`
on a nonempty input, exposed for reasoning. -/
def enforcedAdas (p : ScoreRow) (ps : List ScoreRow) : List ℚ :=
  (pyMax 0 (pyMin 70 p.adas) ::
    adasFixSteps (pyMax 0 (pyMin 70 p.adas)) p.adas (ps.map ScoreRow.adas)).map (clipQ 0 70)

theorem enforce_cons (p : ScoreRow) (ps : List ScoreRow) :
    enforce_clinical_constraints (p :: ps) = .ok ((enforcedAdas p ps).map deriveRow) := rfl

theorem clipQ_le (lo hi x : ℚ) : clipQ lo hi x ≤ hi := by
  simp only [clipQ, pyMin, pyMax]
  split_ifs <;> linarith

theorem le_clipQ (lo hi x : ℚ) (h : lo ≤ hi) : lo ≤ clipQ lo hi x := by
  simp only [clipQ, pyMin, pyMax]
  split_ifs <;> linarith

theorem clipQ_mono (lo hi a b : ℚ) (h : a ≤ b) : clipQ lo hi a ≤ clipQ lo hi b := by
  simp only [clipQ, pyMin, pyMax]
  split_ifs <;> linarith

theorem clipQ_eq_self (lo hi x : ℚ) (h1 : lo ≤ x) (h2 : x ≤ hi) : clipQ lo hi x = x := by
  simp only [clipQ, pyMin, pyMax]
  split_ifs <;> linarith

theorem pyMax_pyMin_eq_self (lo hi x : ℚ) (h1 : lo ≤ x) (h2 : x ≤ hi) :
    pyMax lo (pyMin hi x) = x := by
  simp only [pyMin, pyMax]
  split_ifs <;> linarith

theorem adasFixSteps_chain (pf pr : ℚ) (l : List ℚ) :
    List.Chain (· ≤ ·) pf (adasFixSteps pf pr l) := by
  induction l generalizing pf pr with
  | nil => exact List.Chain.nil
  | cons r rs ih =>
      have hstep : adasFixSteps pf pr (r :: rs) =
          (pf + (if r - pr < 0 then -(r - pr) else r - pr)) ::
            adasFixSteps (pf + (if r - pr < 0 then -(r - pr) else r - pr)) r rs := rfl
      rw [hstep]
      refine List.Chain.cons ?_ (ih _ _)
      split_ifs <;> linarith

theorem adasFixSteps_of_chain (x : ℚ) (l : List ℚ) (h : List.Chain (· ≤ ·) x l) :
    adasFixSteps x x l = l := by
  induction l generalizing x with
  | nil => rfl
  | cons y ys ih =>
      rcases h with _ | ⟨hxy, hys⟩
      have hd : ¬ (y - x < 0) := by linarith
      simp only [adasFixSteps, if_neg hd]
      have hy : x + (y - x) = y := by ring
      rw [hy]
      exact congrArg (y :: ·) (ih y hys)

theorem diffsNonneg_of_chain : ∀ l : List ℚ, List.Chain' (· ≤ ·) l → diffsNonneg l = true
  | [], _ => rfl
  | [_], _ => rfl
  | a :: b :: rs, h => by
      obtain ⟨hab, ht⟩ := List.chain'_cons.mp h
      simp only [diffsNonneg, Bool.and_eq_true, decide_eq_true_eq]
      exact ⟨by linarith, diffsNonneg_of_chain (b :: rs) ht⟩

theorem allInRange_of_forall (lo hi : ℚ) (l : List ℚ)
    (h : ∀ x ∈ l, lo ≤ x ∧ x ≤ hi) : allInRange lo hi l = true := by
  simp only [allInRange, List.all_eq_true, Bool.and_eq_true, decide_eq_true_eq]
  exact h

theorem cdrBand_mem (a : ℚ) :
    cdrBand a = 0 ∨ cdrBand a = 1 / 2 ∨ cdrBand a = 1 ∨ cdrBand a = 2 ∨ cdrBand a = 3 := by
  simp only [cdrBand]
  split_ifs <;> tauto

theorem isValidCdr_cdrBand (a : ℚ) : isValidCdr (cdrBand a) = true := by
  simp only [isValidCdr, Bool.or_eq_true, decide_eq_true_eq]
  have h := cdrBand_mem a
  tauto

theorem enforcedAdas_chain (p : ScoreRow) (ps : List ScoreRow) :
    List.Chain' (· ≤ ·) (enforcedAdas p ps) := by
  have h := adasFixSteps_chain (pyMax 0 (pyMin 70 p.adas)) p.adas (ps.map ScoreRow.adas)
  have h2 := List.chain_map_of_chain (clipQ 0 70)
    (fun a b hab => clipQ_mono 0 70 a b hab) h
  exact h2

theorem enforcedAdas_mem (p : ScoreRow) (ps : List ScoreRow) :
    ∀ x ∈ enforcedAdas p ps, 0 ≤ x ∧ x ≤ 70 := by
  intro x hx
  simp only [enforcedAdas, List.mem_map] at hx
  obtain ⟨a, _, rfl⟩ := hx
  exact ⟨le_clipQ 0 70 a (by norm_num), clipQ_le 0 70 a⟩

theorem map_deriveRow_adas (l : List ℚ) :
    (l.map deriveRow).map ScoreRow.adas = l := by
  simp [List.map_map, Function.comp_def, deriveRow]

theorem map_deriveRow_mmse (l : List ℚ) :
    (l.map deriveRow).map ScoreRow.mmse =
      l.map fun a => clipQ 0 30 (30 - a * 30 / 70) := by
  simp [List.map_map, Function.comp_def, deriveRow]

theorem map_deriveRow_cdr_sob (l : List ℚ) :
    (l.map deriveRow).map ScoreRow.cdr_sob = l.map fun a => clipQ 0 18 (a * 18 / 70) := by
  simp [List.map_map, Function.comp_def, deriveRow]

theorem map_deriveRow_cdr_global (l : List ℚ) :
    (l.map deriveRow).map ScoreRow.cdr_global = l.map cdrBand := by
  simp [List.map_map, Function.comp_def, deriveRow]

theorem validate_ok_of_checks (q : ScoreRow) (qs : List ScoreRow)
    (h1 : allInRange 0 30 (q.mmse :: qs.map ScoreRow.mmse) = true)
    (h2 : (q.cdr_global :: qs.map ScoreRow.cdr_global).all isValidCdr = true)
    (h3 : allInRange 0 18 (q.cdr_sob :: qs.map ScoreRow.cdr_sob) = true)
    (h4 : allInRange 0 70 (q.adas :: qs.map ScoreRow.adas) = true)
    (h5 : diffsNonneg (q.adas :: qs.map ScoreRow.adas) = true) :
    ∃ rep, validate_predictions (q :: qs) = .ok rep ∧ rep.all_valid = true := by
  refine ⟨_, rfl, ?_⟩
  show (allInRange 0 30 (q.mmse :: qs.map ScoreRow.mmse) &&
      (q.cdr_global :: qs.map ScoreRow.cdr_global).all isValidCdr &&
      allInRange 0 18 (q.cdr_sob :: qs.map ScoreRow.cdr_sob) &&
      allInRange 0 70 (q.adas :: qs.map ScoreRow.adas) &&
      diffsNonneg (q.adas :: qs.map ScoreRow.adas)) = true
  rw [h1, h2, h3, h4, h5]
  rfl

example :
    enforce_clinical_constraints
      [⟨1, 2, 3, 40⟩, ⟨4, 5, 6, 30⟩, ⟨7, 8, 9, 50⟩] =
    .ok [⟨90 / 7, 2, 72 / 7, 40⟩, ⟨60 / 7, 2, 90 / 7, 50⟩, ⟨0, 3, 18, 70⟩] := by
  simp only [enforce_clinical_constraints, adasFixSteps, deriveRow, clipQ, pyMin, pyMax, cdrBand,
    List.map]
  norm_num

example : (validate_predictions [⟨0, 0, 0, 0⟩, ⟨1, 0, 0, 0⟩]).map
    ValidationReport.all_valid = .ok true := by
  simp only [validate_predictions, allInRange, isValidCdr, diffsNonneg, diffsNonpos, List.map,
    List.all, Except.map]
  norm_num

/-- C1: for every nonempty input sequence (with every `adas_cog` a defined
rational), the output of `enforce_clinical_constraints` satisfies all
Validator rules — `mmse ∈ [0,30]`, `cdr_global ∈ {0, 0.5, 1, 2, 3}`,
`cdr_sob ∈ [0,18]`, `adas ∈ [0,70]`, `adas` non-decreasing — and
`validate_predictions` on that output reports `all_valid = true`. -/
theorem enforce_output_valid (rows : List ScoreRow) (h : rows ≠ []) :
    ∃ out, enforce_clinical_constraints rows = .ok out ∧
      (∀ r ∈ out,
        (0 ≤ r.mmse ∧ r.mmse ≤ 30) ∧
        (r.cdr_global = 0 ∨ r.cdr_global = 1 / 2 ∨ r.cdr_global = 1 ∨
          r.cdr_global = 2 ∨ r.cdr_global = 3) ∧
        (0 ≤ r.cdr_sob ∧ r.cdr_sob ≤ 18) ∧
        (0 ≤ r.adas ∧ r.adas ≤ 70)) ∧
      List.Chain' (· ≤ ·) (out.map ScoreRow.adas) ∧
      ∃ rep, validate_predictions out = .ok rep ∧ rep.all_valid = true := by
  match rows with
  | [] => exact absurd rfl h
  | p :: ps =>
    refine ⟨(enforcedAdas p ps).map deriveRow, enforce_cons p ps, ?_, ?_, ?_⟩
    · intro r hr
      simp only [List.mem_map] at hr
      obtain ⟨a, ha, rfl⟩ := hr
      have hmem := enforcedAdas_mem p ps a ha
      simp only [deriveRow]
      exact ⟨⟨le_clipQ 0 30 _ (by norm_num), clipQ_le 0 30 _⟩, cdrBand_mem a,
        ⟨le_clipQ 0 18 _ (by norm_num), clipQ_le 0 18 _⟩, hmem⟩
    · rw [map_deriveRow_adas]
      exact enforcedAdas_chain p ps
    · match hE : enforcedAdas p ps with
      | [] => simp [enforcedAdas] at hE
      | c0 :: crest =>
        have hchain : List.Chain' (· ≤ ·) (c0 :: crest) := hE ▸ enforcedAdas_chain p ps
        have hmem : ∀ x ∈ c0 :: crest, 0 ≤ x ∧ x ≤ 70 := by
          intro x hx
          exact enforcedAdas_mem p ps x (hE ▸ hx)
        rw [List.map_cons]
        refine validate_ok_of_checks (deriveRow c0) (crest.map deriveRow) ?_ ?_ ?_ ?_ ?_
        · show allInRange 0 30 (((c0 :: crest).map deriveRow).map ScoreRow.mmse) = true
          rw [map_deriveRow_mmse]
          refine allInRange_of_forall 0 30 _ ?_
          intro x hx
          simp only [List.mem_map] at hx
          obtain ⟨a, _, rfl⟩ := hx
          exact ⟨le_clipQ 0 30 _ (by norm_num), clipQ_le 0 30 _⟩
        · show (((c0 :: crest).map deriveRow).map ScoreRow.cdr_global).all isValidCdr = true
          rw [map_deriveRow_cdr_global]
          simp only [List.all_eq_true]
          intro x hx
          simp only [List.mem_map] at hx
          obtain ⟨a, _, rfl⟩ := hx
          exact isValidCdr_cdrBand a
        · show allInRange 0 18 (((c0 :: crest).map deriveRow).map ScoreRow.cdr_sob) = true
          rw [map_deriveRow_cdr_sob]
          refine allInRange_of_forall 0 18 _ ?_
          intro x hx
          simp only [List.mem_map] at hx
          obtain ⟨a, _, rfl⟩ := hx
          exact ⟨le_clipQ 0 18 _ (by norm_num), clipQ_le 0 18 _⟩
        · show allInRange 0 70 (((c0 :: crest).map deriveRow).map ScoreRow.adas) = true
          rw [map_deriveRow_adas]
          exact allInRange_of_forall 0 70 _ hmem
        · show diffsNonneg (((c0 :: crest).map deriveRow).map ScoreRow.adas) = true
          rw [map_deriveRow_adas]
          exact diffsNonneg_of_chain _ hchain

/-- Witness for C1 at the singleton input `[(1, 1, 1, 35)]`. -/
theorem enforce_output_valid_at_singleton :
    ∃ out, enforce_clinical_constraints [⟨1, 1, 1, 35⟩] = .ok out ∧
      (∀ r ∈ out,
        (0 ≤ r.mmse ∧ r.mmse ≤ 30) ∧
        (r.cdr_global = 0 ∨ r.cdr_global = 1 / 2 ∨ r.cdr_global = 1 ∨
          r.cdr_global = 2 ∨ r.cdr_global = 3) ∧
        (0 ≤ r.cdr_sob ∧ r.cdr_sob ≤ 18) ∧
        (0 ≤ r.adas ∧ r.adas ≤ 70)) ∧
      List.Chain' (· ≤ ·) (out.map ScoreRow.adas) ∧
      ∃ rep, validate_predictions out = .ok rep ∧ rep.all_valid = true :=
  enforce_output_valid [⟨1, 1, 1, 35⟩] (List.cons_ne_nil _ _)

/-- C2 (counterexample): on the empty sequence `enforce_clinical_constraints`
raises `IndexError` (from `raw_adas[0]`), not the `ShapeError` the claim
names. -/
theorem enforce_empty_not_shapeError :
    enforce_clinical_constraints [] = .error .indexError ∧
    enforce_clinical_constraints [] ≠ .error .shapeError := by
  refine ⟨rfl, ?_⟩
  intro hcontra
  simp [enforce_clinical_constraints] at hcontra

/-- C2 (amended): `enforce_clinical_constraints` fails on the empty sequence,
but with an index-out-of-bounds error rather than a `ShapeError` (no
`ShapeError` exists in the code); a timepoint of a `(T, 4)` array always
carries an `adas_cog` value, and for every non-empty input the function
returns normally. -/
theorem enforce_empty_fails_nonempty_ok :
    enforce_clinical_constraints [] = .error .indexError ∧
    ∀ rows : List ScoreRow, rows ≠ [] →
      ∃ out, enforce_clinical_constraints rows = .ok out := by
  refine ⟨rfl, ?_⟩
  intro rows h
  match rows with
  | [] => exact absurd rfl h
  | p :: ps => exact ⟨_, enforce_cons p ps⟩

/-- Witness for the amended C2 at the singleton input `[(0, 0, 0, 5)]`. -/
theorem enforce_nonempty_ok_at_singleton :
    ∃ out, enforce_clinical_constraints [⟨0, 0, 0, 5⟩] = .ok out :=
  enforce_empty_fails_nonempty_ok.2 [⟨0, 0, 0, 5⟩] (List.cons_ne_nil _ _)

/-- C3 (counterexample): `validate_predictions` on the empty sequence does not
return a report at all — the `min()` reduction over a zero-size array raises
`ValueError`. -/
theorem validate_empty_raises_valueError :
    validate_predictions [] = .error .valueError := rfl

/-- C3 (amended): `validate_predictions` raises on an empty sequence (the
`min`/`max` reductions over a zero-size array have no identity) instead of
returning a report with empty ranges; on every non-empty sequence it returns
a report and does not raise. -/
theorem validate_empty_fails_nonempty_ok :
    validate_predictions [] = .error .valueError ∧
    ∀ (p : ScoreRow) (ps : List ScoreRow),
      ∃ rep, validate_predictions (p :: ps) = .ok rep := by
  exact ⟨rfl, fun p ps => ⟨_, rfl⟩⟩

/-- C9: the `all_valid` aggregate returned by `validate_predictions` is the
conjunction of exactly the five checks `mmse_valid`, `cdr_global_valid`,
`cdr_sob_valid`, `adas_valid`, `adas_monotonic`; the
`mmse_monotonic_decreasing` check is computed and reported but does not
influence `all_valid` (second conjunct: a concrete report with
`mmse_monotonic_decreasing = false` but `all_valid = true`). -/
theorem all_valid_aggregate :
    (∀ (rows : List ScoreRow) (rep : ValidationReport),
      validate_predictions rows = .ok rep →
      rep.all_valid = (rep.mmse_valid && rep.cdr_global_valid && rep.cdr_sob_valid &&
        rep.adas_valid && rep.adas_monotonic)) ∧
    ∃ rep, validate_predictions [⟨0, 0, 0, 0⟩, ⟨1, 0, 0, 0⟩] = .ok rep ∧
      rep.all_valid = true ∧ rep.mmse_monotonic_decreasing = false := by
  constructor
  · intro rows rep h
    match rows with
    | [] => simp [validate_predictions] at h
    | p :: ps =>
      rw [show validate_predictions (p :: ps) = .ok rep ↔
          _ = rep from ⟨fun hh => Except.ok.inj hh, fun hh => hh ▸ rfl⟩] at h
      subst h
      rfl
  · refine ⟨_, rfl, ?_, ?_⟩
    · show (allInRange 0 30 ((0 : ℚ) :: [(1 : ℚ)]) &&
        ((0 : ℚ) :: [(0 : ℚ)]).all isValidCdr &&
        allInRange 0 18 ((0 : ℚ) :: [(0 : ℚ)]) &&
        allInRange 0 70 ((0 : ℚ) :: [(0 : ℚ)]) &&
        diffsNonneg ((0 : ℚ) :: [(0 : ℚ)])) = true
      simp only [allInRange, isValidCdr, diffsNonneg, List.all]
      norm_num
    · show diffsNonpos ((0 : ℚ) :: [(1 : ℚ)]) = false
      simp only [diffsNonpos]
      norm_num

/-- Witness for C9 applied at a concrete report. -/
theorem all_valid_aggregate_at_example :
    ∃ rep, validate_predictions [⟨0, 0, 0, 0⟩, ⟨1, 0, 0, 0⟩] = .ok rep ∧
      rep.all_valid = (rep.mmse_valid && rep.cdr_global_valid && rep.cdr_sob_valid &&
        rep.adas_valid && rep.adas_monotonic) :=
  ⟨_, rfl, all_valid_aggregate.1 [⟨0, 0, 0, 0⟩, ⟨1, 0, 0, 0⟩] _ rfl⟩

theorem map_clipQ_eq_self (l : List ℚ) (h : ∀ x ∈ l, 0 ≤ x ∧ x ≤ 70) :
    l.map (clipQ 0 70) = l := by
  have h2 : ∀ x ∈ l, clipQ 0 70 x = x := fun x hx =>
    clipQ_eq_self 0 70 x (h x hx).1 (h x hx).2
  rw [List.map_congr_left h2, List.map_id']

theorem enforcedAdas_fixes_nothing (c0 : ℚ) (crest : List ℚ)
    (hchain : List.Chain' (· ≤ ·) (c0 :: crest))
    (hmem : ∀ x ∈ c0 :: crest, 0 ≤ x ∧ x ≤ 70) :
    enforcedAdas (deriveRow c0) (crest.map deriveRow) = c0 :: crest := by
  have h0 := hmem c0 (List.mem_cons_self _ _)
  have hadas : (deriveRow c0).adas = c0 := rfl
  show ((pyMax 0 (pyMin 70 (deriveRow c0).adas)) ::
    adasFixSteps (pyMax 0 (pyMin 70 (deriveRow c0).adas)) (deriveRow c0).adas
      ((crest.map deriveRow).map ScoreRow.adas)).map (clipQ 0 70) = c0 :: crest
  rw [hadas, map_deriveRow_adas, pyMax_pyMin_eq_self 0 70 c0 h0.1 h0.2,
    adasFixSteps_of_chain c0 crest hchain]
  exact map_clipQ_eq_self _ hmem

/-- C5: `enforce_clinical_constraints` is idempotent — whenever it returns an
output, feeding that output back in as raw input returns the same output,
every field at every timepoint. -/
theorem enforce_idempotent (rows out : List ScoreRow)
    (h : enforce_clinical_constraints rows = .ok out) :
    enforce_clinical_constraints out = .ok out := by
  match rows with
  | [] => simp [enforce_clinical_constraints] at h
  | p :: ps =>
    rw [enforce_cons] at h
    have hout : (enforcedAdas p ps).map deriveRow = out := Except.ok.inj h
    subst hout
    match hE : enforcedAdas p ps with
    | [] => simp [enforcedAdas] at hE
    | c0 :: crest =>
      have hchain : List.Chain' (· ≤ ·) (c0 :: crest) := hE ▸ enforcedAdas_chain p ps
      have hmem : ∀ x ∈ c0 :: crest, 0 ≤ x ∧ x ≤ 70 := by
        intro x hx
        exact enforcedAdas_mem p ps x (hE ▸ hx)
      rw [List.map_cons, enforce_cons,
        enforcedAdas_fixes_nothing c0 crest hchain hmem, List.map_cons]

/-- Witness for C5 at the input `[(1, 1, 1, 40), (1, 1, 1, 30)]`. -/
theorem enforce_idempotent_at_example :
    enforce_clinical_constraints
      ((fun l => match enforce_clinical_constraints l with
        | .ok out => out
        | .error _ => []) [⟨1, 1, 1, 40⟩, ⟨1, 1, 1, 30⟩]) =
    .ok ((fun l => match enforce_clinical_constraints l with
        | .ok out => out
        | .error _ => []) [⟨1, 1, 1, 40⟩, ⟨1, 1, 1, 30⟩]) :=
  enforce_idempotent [⟨1, 1, 1, 40⟩, ⟨1, 1, 1, 30⟩] _ rfl

/-- C6: `enforce_clinical_constraints` on the raw `adas_cog` sequence
`[40, 30, 50]` (any values in the other three columns) repairs `adas_cog` to
`[40, 50, 70]`, and each output timepoint carries
`mmse = clip(30 - a*30/70, 0, 30)`, `cdr_sob = clip(a*18/70, 0, 18)` and
`cdr_global = band(a)` for its repaired value `a`. -/
theorem enforce_scenario_40_30_50 (m0 c0 s0 m1 c1 s1 m2 c2 s2 : ℚ) :
    enforce_clinical_constraints
      [⟨m0, c0, s0, 40⟩, ⟨m1, c1, s1, 30⟩, ⟨m2, c2, s2, 50⟩] =
    .ok [⟨clipQ 0 30 (30 - 40 * 30 / 70), cdrBand 40, clipQ 0 18 (40 * 18 / 70), 40⟩,
         ⟨clipQ 0 30 (30 - 50 * 30 / 70), cdrBand 50, clipQ 0 18 (50 * 18 / 70), 50⟩,
         ⟨clipQ 0 30 (30 - 70 * 30 / 70), cdrBand 70, clipQ 0 18 (70 * 18 / 70), 70⟩] := by
  have hE : enforcedAdas (⟨m0, c0, s0, 40⟩ : ScoreRow)
      [⟨m1, c1, s1, 30⟩, ⟨m2, c2, s2, 50⟩] = [40, 50, 70] := by
    simp only [enforcedAdas, adasFixSteps, List.map]
    norm_num [pyMin, pyMax, clipQ]
  rw [enforce_cons, hE]
  rfl

theorem generate_eq (b : BaselineScores) (nm im : ℕ) (iA cM cS : ℕ → ℚ) :
    generate_future_predictions b nm im iA cM cS =
      (List.range (nm / im + 1)).map fun t =>
        { mmse := clipQ 0 30 (scaleIfExceeds 30 30 (nm / im + 1)
            (modDiffTraj (b.mmse.getD (176 / 10)) cM) t)
          cdr_global := cdrBand (clipQ 0 70 (scaleIfExceeds 70 (613 / 10) (nm / im + 1)
            (walk (b.adas_totscore.getD (289 / 10)) iA) t))
          cdr_sob := clipQ 0 18 (scaleIfExceeds 18 18 (nm / im + 1)
            (modDiffTraj (b.cdr_sob.getD (74 / 10)) cS) t)
          adas := clipQ 0 70 (scaleIfExceeds 70 (613 / 10) (nm / im + 1)
            (walk (b.adas_totscore.getD (289 / 10)) iA) t) } := rfl

theorem modDiffTraj_step_le (x0 : ℚ) (c : ℕ → ℚ) (t : ℕ) :
    modDiffTraj x0 c t ≤ modDiffTraj x0 c (t + 1) := by
  have h := abs_nonneg (walk x0 c (t + 1) - walk x0 c t)
  simp only [modDiffTraj]
  linarith

theorem scaleIfExceeds_mono (cap target : ℚ) (hcap : 0 ≤ cap) (htar : 0 ≤ target)
    (T t : ℕ) (traj : ℕ → ℚ) (h : traj t ≤ traj (t + 1)) :
    scaleIfExceeds cap target T traj t ≤ scaleIfExceeds cap target T traj (t + 1) := by
  simp only [scaleIfExceeds]
  split_ifs with hc
  · have hpos : (0 : ℚ) < traj (T - 1) := lt_of_le_of_lt hcap hc
    exact mul_le_mul_of_nonneg_right h (div_nonneg htar hpos.le)
  · exact h

theorem chain'_range_map_of_mono (f : ℕ → ℚ) (n : ℕ) (h : ∀ t, f t ≤ f (t + 1)) :
    List.Chain' (· ≤ ·) ((List.range n).map f) := by
  rw [List.chain'_map]
  match n with
  | 0 => exact List.chain'_nil
  | k + 1 => exact (List.chain'_range_succ _ k).mpr fun m _ => h m

/-- C4: CDR-Global is always the fixed band lookup of the finalized ADAS-Cog
value: the band table maps `a < 10 → 0`, `10 ≤ a < 20 → 0.5`,
`20 ≤ a < 32 → 1`, `32 ≤ a < 55 → 2`, `55 ≤ a → 3` (so exactly `0.5`, `1`,
`2`, `3` at the boundaries `10`, `20`, `32`, `55`), and in every output row of
both `enforce_clinical_constraints` and `generate_future_predictions`,
`cdr_global = cdrBand adas`. -/
theorem cdr_global_banding :
    (∀ a : ℚ,
      (a < 10 → cdrBand a = 0) ∧
      (10 ≤ a → a < 20 → cdrBand a = 1 / 2) ∧
      (20 ≤ a → a < 32 → cdrBand a = 1) ∧
      (32 ≤ a → a < 55 → cdrBand a = 2) ∧
      (55 ≤ a → cdrBand a = 3)) ∧
    (∀ (rows out : List ScoreRow), enforce_clinical_constraints rows = .ok out →
      ∀ r ∈ out, r.cdr_global = cdrBand r.adas) ∧
    (∀ (b : BaselineScores) (nm im : ℕ) (iA cM cS : ℕ → ℚ),
      ∀ r ∈ generate_future_predictions b nm im iA cM cS,
        r.cdr_global = cdrBand r.adas) := by
  refine ⟨?_, ?_, ?_⟩
  · intro a
    refine ⟨?_, ?_, ?_, ?_, ?_⟩ <;> intros <;> simp only [cdrBand] <;>
      split_ifs <;> first | rfl | linarith
  · intro rows out h r hr
    match rows with
    | [] => simp [enforce_clinical_constraints] at h
    | p :: ps =>
      rw [enforce_cons] at h
      have hout : (enforcedAdas p ps).map deriveRow = out := Except.ok.inj h
      subst hout
      simp only [List.mem_map] at hr
      obtain ⟨a, _, rfl⟩ := hr
      rfl
  · intro b nm im iA cM cS r hr
    rw [generate_eq] at hr
    simp only [List.mem_map] at hr
    obtain ⟨t, _, rfl⟩ := hr
    rfl

/-- Witness for C4: the band boundary `adas = 10` maps to `0.5`, and the first
output row of a concrete `enforce_clinical_constraints` run satisfies
`cdr_global = cdrBand adas`. -/
theorem cdr_global_banding_at_boundary :
    cdrBand 10 = 1 / 2 ∧
    (∀ r ∈ (fun l => match enforce_clinical_constraints l with
        | .ok out => out
        | .error _ => []) [⟨3, 3, 3, 25⟩], r.cdr_global = cdrBand r.adas) :=
  ⟨((cdr_global_banding.1 10).2.1 (by norm_num) (by norm_num)),
   cdr_global_banding.2.1 [⟨3, 3, 3, 25⟩] _ rfl⟩

/-- C7: for every baseline and all positive `horizon_months` and
`interval_months` (and any draws), the MMSE column returned by
`generate_future_predictions` is monotonically non-decreasing in `t` —
numerically increasing even though MMSE clinically declines. -/
theorem generate_mmse_monotone (b : BaselineScores) (nm im : ℕ) (iA cM cS : ℕ → ℚ)
    (h1 : 0 < nm) (h2 : 0 < im) :
    List.Chain' (· ≤ ·)
      ((generate_future_predictions b nm im iA cM cS).map ScoreRow.mmse) := by
  rw [generate_eq, List.map_map]
  apply chain'_range_map_of_mono
  intro t
  show clipQ 0 30 (scaleIfExceeds 30 30 (nm / im + 1)
      (modDiffTraj (b.mmse.getD (176 / 10)) cM) t) ≤
    clipQ 0 30 (scaleIfExceeds 30 30 (nm / im + 1)
      (modDiffTraj (b.mmse.getD (176 / 10)) cM) (t + 1))
  exact clipQ_mono 0 30 _ _ (scaleIfExceeds_mono 30 30 (by norm_num) (by norm_num) _ t _
    (modDiffTraj_step_le _ cM t))

/-- Witness for C7 at a concrete baseline, horizon and draws. -/
theorem generate_mmse_monotone_at_example :
    List.Chain' (· ≤ ·)
      ((generate_future_predictions ⟨some 20, some 1, some 5, some 30⟩ 12 6
        (fun _ => 3 / 2) (fun _ => -6 / 5) (fun _ => 7 / 10)).map ScoreRow.mmse) :=
  generate_mmse_monotone ⟨some 20, some 1, some 5, some 30⟩ 12 6
    (fun _ => 3 / 2) (fun _ => -6 / 5) (fun _ => 7 / 10) (by norm_num) (by norm_num)

/-- C10: the output of `generate_future_predictions` does not depend on the
baseline's `cdr_global` field — two baselines that agree on `mmse`,
`cdr_sob` and `adas_totscore` (one may even lack `cdr_global`) yield
identical outputs, since CDR-Global is always re-derived from ADAS-Cog. -/
theorem generate_ignores_baseline_cdr_global (b1 b2 : BaselineScores) (nm im : ℕ)
    (iA cM cS : ℕ → ℚ) (hm : b1.mmse = b2.mmse) (hs : b1.cdr_sob = b2.cdr_sob)
    (ha : b1.adas_totscore = b2.adas_totscore) :
    generate_future_predictions b1 nm im iA cM cS =
    generate_future_predictions b2 nm im iA cM cS := by
  rw [generate_eq, generate_eq, hm, hs, ha]

/-- Witness for C10: a baseline lacking `cdr_global` and one carrying
`cdr_global = 2` produce the same output. -/
theorem generate_ignores_baseline_cdr_global_at_example :
    generate_future_predictions ⟨some 10, none, some 3, some 20⟩ 90 6
      (fun _ => 3 / 2) (fun _ => -6 / 5) (fun _ => 7 / 10) =
    generate_future_predictions ⟨some 10, some 2, some 3, some 20⟩ 90 6
      (fun _ => 3 / 2) (fun _ => -6 / 5) (fun _ => 7 / 10) :=
  generate_ignores_baseline_cdr_global ⟨some 10, none, some 3, some 20⟩
    ⟨some 10, some 2, some 3, some 20⟩ 90 6
    (fun _ => 3 / 2) (fun _ => -6 / 5) (fun _ => 7 / 10) rfl rfl rfl

theorem le_walk (x0 lo : ℚ) (step : ℕ → ℚ) (h : ∀ t, lo ≤ step t) :
    ∀ t : ℕ, x0 + (t : ℚ) * lo ≤ walk x0 step t
  | 0 => by simp [walk]
  | t + 1 => by
      have ih := le_walk x0 lo step h t
      have hstep := h t
      simp only [walk]
      push_cast
      nlinarith [ih, hstep]

theorem walk_le (x0 hi : ℚ) (step : ℕ → ℚ) (h : ∀ t, step t ≤ hi) :
    ∀ t : ℕ, walk x0 step t ≤ x0 + (t : ℚ) * hi
  | 0 => by simp [walk]
  | t + 1 => by
      have ih := walk_le x0 hi step h t
      have hstep := h t
      simp only [walk]
      push_cast
      nlinarith [ih, hstep]

theorem getD_range_map {α : Type} (f : ℕ → α) (n t : ℕ) (d : α) (h : t < n) :
    ((List.range n).map f).getD t d = f t := by
  rw [List.getD_eq_getElem?_getD, List.getElem?_map, List.getElem?_range h]
  rfl

/-- The baseline of testable property 6 of the specification:
`{mmse: 17.6, cdr_global: 1.0, cdr_sob: 7.4, adas_cog: 28.9}`. -/
def scenarioBaseline : BaselineScores :=
  ⟨some (176 / 10), some 1, some (74 / 10), some (289 / 10)⟩

/-- C8: with the scenario baseline, `horizon_months = 90` and
`interval_months = 6` (and draws in the documented `[1.4, 1.9]` range), the
output has exactly 16 timepoints, `adas_cog[0] = 28.9`, `adas_cog[15]` lies
in `[28.9, 61.3]`, the ADAS-Cog column is monotonically non-decreasing, and
`cdr_global[0] = 1`. -/
theorem generate_scenario_16 (iA cM cS : ℕ → ℚ)
    (hA : ∀ t, 14 / 10 ≤ iA t ∧ iA t ≤ 19 / 10) :
    (generate_future_predictions scenarioBaseline 90 6 iA cM cS).length = 16 ∧
    ((generate_future_predictions scenarioBaseline 90 6 iA cM cS).map
      ScoreRow.adas).getD 0 0 = 289 / 10 ∧
    (289 / 10 ≤ ((generate_future_predictions scenarioBaseline 90 6 iA cM cS).map
        ScoreRow.adas).getD 15 0 ∧
      ((generate_future_predictions scenarioBaseline 90 6 iA cM cS).map
        ScoreRow.adas).getD 15 0 ≤ 613 / 10) ∧
    List.Chain' (· ≤ ·) ((generate_future_predictions scenarioBaseline 90 6 iA cM cS).map
      ScoreRow.adas) ∧
    ((generate_future_predictions scenarioBaseline 90 6 iA cM cS).map
      ScoreRow.cdr_global).getD 0 0 = 1 := by
  have e1 : (90 : ℕ) / 6 + 1 = 16 := by norm_num
  have hlo := le_walk (289 / 10) (14 / 10) iA fun t => (hA t).1
  have hhi := walk_le (289 / 10) (19 / 10) iA fun t => (hA t).2
  have hW15lo : (499 : ℚ) / 10 ≤ walk (289 / 10) iA 15 := by
    have := hlo 15
    push_cast at this
    linarith
  have hW15hi : walk (289 / 10) iA 15 ≤ (574 : ℚ) / 10 := by
    have := hhi 15
    push_cast at this
    linarith
  have hfin : ¬ (walk (289 / 10) iA (16 - 1) > 70) := by
    show ¬ (walk (289 / 10) iA 15 > 70)
    linarith
  have hscale : ∀ t, scaleIfExceeds 70 (613 / 10) 16 (walk (289 / 10) iA) t =
      walk (289 / 10) iA t := by
    intro t
    simp only [scaleIfExceeds, if_neg hfin]
  have hWmono : ∀ t, walk (289 / 10) iA t ≤ walk (289 / 10) iA (t + 1) := by
    intro t
    have := (hA t).1
    simp only [walk]
    linarith
  rw [generate_eq]
  simp only [scenarioBaseline, Option.getD_some, e1, List.map_map]
  refine ⟨by simp, ?_, ?_, ?_, ?_⟩
  · rw [getD_range_map _ 16 0 0 (by norm_num)]
    show clipQ 0 70 (scaleIfExceeds 70 (613 / 10) 16 (walk (289 / 10) iA) 0) = 289 / 10
    rw [hscale 0]
    show clipQ 0 70 (289 / 10) = 289 / 10
    exact clipQ_eq_self 0 70 _ (by norm_num) (by norm_num)
  · rw [getD_range_map _ 16 15 0 (by norm_num)]
    constructor
    · show (289 : ℚ) / 10 ≤ clipQ 0 70 (scaleIfExceeds 70 (613 / 10) 16 (walk (289 / 10) iA) 15)
      rw [hscale 15, clipQ_eq_self 0 70 _ (by linarith) (by linarith)]
      linarith
    · show clipQ 0 70 (scaleIfExceeds 70 (613 / 10) 16 (walk (289 / 10) iA) 15) ≤ (613 : ℚ) / 10
      rw [hscale 15, clipQ_eq_self 0 70 _ (by linarith) (by linarith)]
      linarith
  · apply chain'_range_map_of_mono
    intro t
    show clipQ 0 70 (scaleIfExceeds 70 (613 / 10) 16 (walk (289 / 10) iA) t) ≤
      clipQ 0 70 (scaleIfExceeds 70 (613 / 10) 16 (walk (289 / 10) iA) (t + 1))
    exact clipQ_mono 0 70 _ _ (scaleIfExceeds_mono 70 (613 / 10) (by norm_num) (by norm_num)
      16 t _ (hWmono t))
  · rw [getD_range_map _ 16 0 0 (by norm_num)]
    show cdrBand (clipQ 0 70 (scaleIfExceeds 70 (613 / 10) 16 (walk (289 / 10) iA) 0)) = 1
    rw [hscale 0]
    show cdrBand (clipQ 0 70 (289 / 10)) = 1
    rw [clipQ_eq_self 0 70 _ (by norm_num) (by norm_num)]
    simp only [cdrBand]
    norm_num

/-- Witness for C8 with all increments equal to `1.5`. -/
theorem generate_scenario_16_at_example :
    (generate_future_predictions scenarioBaseline 90 6 (fun _ => 3 / 2) (fun _ => -6 / 5)
      (fun _ => 7 / 10)).length = 16 ∧
    ((generate_future_predictions scenarioBaseline 90 6 (fun _ => 3 / 2) (fun _ => -6 / 5)
      (fun _ => 7 / 10)).map ScoreRow.adas).getD 0 0 = 289 / 10 ∧
    (289 / 10 ≤ ((generate_future_predictions scenarioBaseline 90 6 (fun _ => 3 / 2)
        (fun _ => -6 / 5) (fun _ => 7 / 10)).map ScoreRow.adas).getD 15 0 ∧
      ((generate_future_predictions scenarioBaseline 90 6 (fun _ => 3 / 2) (fun _ => -6 / 5)
        (fun _ => 7 / 10)).map ScoreRow.adas).getD 15 0 ≤ 613 / 10) ∧
    List.Chain' (· ≤ ·) ((generate_future_predictions scenarioBaseline 90 6 (fun _ => 3 / 2)
      (fun _ => -6 / 5) (fun _ => 7 / 10)).map ScoreRow.adas) ∧
    ((generate_future_predictions scenarioBaseline 90 6 (fun _ => 3 / 2) (fun _ => -6 / 5)
      (fun _ => 7 / 10)).map ScoreRow.cdr_global).getD 0 0 = 1 :=
  generate_scenario_16 (fun _ => 3 / 2) (fun _ => -6 / 5) (fun _ => 7 / 10)
    fun _ => by norm_num
